import Mathlib

/-!
Shallow embedding of the auto-insurance claim-processing engine
(`claim_agent`): the claim/decision schemas, the deterministic coverage
validator, the LangGraph-style workflow graph, the market price check,
policy-text retrieval, the trace assembler, and the smolagents
output-recovery pipeline.

Modelling conventions used throughout this file:
* Python floats (currency amounts) are embedded as rationals.
* Calendar dates are embedded as day numbers (`Nat`): the calendar order
  and the day-successor operation are preserved, and a date is rendered
  into messages via `toString` of its day number.
* External effects (the coverage CSV, the vector store, the web search,
  the reasoning model) are passed in as explicit oracle values.
* Python exceptions crossing a function boundary are embedded as
  `Except` / `Option` results; code that catches every exception is
  embedded as a total function.
-/

namespace ClaimAgent

/-- Embedding of `schemas/claim.py` `ClaimInfo` (pydantic model): the
immutable claim payload.  `estimated_repair_cost` carries the `gt=0`
constraint as a side condition where needed, not in the type. -/
structure ClaimInfo where
  claim_number : String
  policy_number : String
  claimant_name : String
  date_of_loss : Nat
  loss_description : String
  estimated_repair_cost : ℚ
  vehicle_details : Option String
  deriving DecidableEq, Repr

/-- Embedding of `schemas/claim.py` `ClaimDecision`: the final coverage
decision.  `deductible` and `recommended_payout` default to `0` at the
construction sites that omit them. -/
structure ClaimDecision where
  claim_number : String
  covered : Bool
  deductible : ℚ
  recommended_payout : ℚ
  notes : Option String
  deriving DecidableEq, Repr

/-- Embedding of `schemas/policy.py` `PolicyRecommendation`. -/
structure PolicyRecommendation where
  policy_section : String
  recommendation_summary : String
  deductible : Option ℚ
  settlement_amount : Option ℚ
  deriving DecidableEq, Repr

/-- One row of `coverage_data.csv` as read by `core/validation.py`.
`premium_dues_remaining` is kept as the raw cell rendered to a string
(the source coerces it with `str(...)`); the two coverage dates are kept
as already-parsed day numbers (`_parse_date` is modelled as the identity
on date-valued cells). -/
structure PolicyRecord where
  policy_number : String
  premium_dues_remaining : String
  coverage_start_date : Nat
  coverage_end_date : Nat
  deriving DecidableEq, Repr

/-- Failure message of `validate_claim` when the CSV file is missing. -/
def fileNotFoundMsg (csv_path : String) : String :=
  "Coverage data file not found: " ++ csv_path

/-- Failure message of `validate_claim` when the policy is absent. -/
def policyNotFoundMsg (policy_number : String) : String :=
  "Policy " ++ policy_number ++ " not found in records"

/-- Failure message of `validate_claim` when premium dues are outstanding. -/
def duesMsg (policy_number : String) : String :=
  "Policy " ++ policy_number ++
    " has outstanding premium dues — claim cannot be processed"

/-- Failure message of `validate_claim` when the date of loss is outside
the coverage period. -/
def outsideCoverageMsg (date_of_loss cov_start cov_end : Nat)
    (policy_number : String) : String :=
  "Date of loss " ++ toString date_of_loss ++
    " is outside the coverage period (" ++ toString cov_start ++ " to " ++
    toString cov_end ++ ") for policy " ++ policy_number

/-- Whitespace test matching Python `str.strip` on ASCII text. -/
def isWsChar (c : Char) : Bool :=
  c = ' ' || c = '\t' || c = '\n' || c = '\r' || c = '\x0b' || c = '\x0c'

/-- Embedding of Python `str.strip()` (ASCII whitespace). -/
def pyStrip (s : String) : String :=
  String.mk (((s.data.dropWhile isWsChar).reverse.dropWhile isWsChar).reverse)

/-- Embedding of Python `str.lower()` (ASCII case folding). -/
def pyLower (s : String) : String :=
  String.mk (s.data.map Char.toLower)

/-- The dues coercion in `core/validation.py` line 58:
`str(record["premium_dues_remaining"]).strip().lower() == "true"`. -/
def duesRemaining (record : PolicyRecord) : Bool :=
  pyLower (pyStrip record.premium_dues_remaining) == "true"

/-- Embedding of `core/validation.py` `validate_claim`.  The CSV file is
passed as `none` (file missing) or `some df` (its parsed rows);
`csv_path` is only used in the file-missing message.  The three checks
run in source order: policy row lookup (first matching row), outstanding
dues, date-of-loss within the inclusive coverage window. -/
def validate_claim (claim : ClaimInfo) (csv_path : String)
    (csv : Option (List PolicyRecord)) : Bool × String :=
  match csv with
  | none => (false, fileNotFoundMsg csv_path)
  | some df =>
    match df.find? (fun r => r.policy_number == claim.policy_number) with
    | none => (false, policyNotFoundMsg claim.policy_number)
    | some record =>
      if duesRemaining record then
        (false, duesMsg claim.policy_number)
      else if ¬ (record.coverage_start_date ≤ claim.date_of_loss ∧
          claim.date_of_loss ≤ record.coverage_end_date) then
        (false, outsideCoverageMsg claim.date_of_loss record.coverage_start_date
          record.coverage_end_date claim.policy_number)
      else
        (true, "valid")

/-- Does the second character list occur at the start of the first? -/
def charsStart : List Char → List Char → Bool
  | _, [] => true
  | [], _ :: _ => false
  | c :: cs, d :: ds => c = d && charsStart cs ds

/-- Does the second character list occur anywhere inside the first? -/
def charsHave : List Char → List Char → Bool
  | [], ds => ds.isEmpty
  | c :: cs, ds => charsStart (c :: cs) ds || charsHave cs ds

/-- Substring test on strings, via the underlying character lists. -/
def strHas (hay needle : String) : Bool :=
  charsHave hay.data needle.data

theorem charsStart_extend {s n : List Char} (t : List Char)
    (h : charsStart s n = true) : charsStart (s ++ t) n = true := by
  induction n generalizing s with
  | nil => simp [charsStart]
  | cons d ds ih =>
    cases s with
    | nil => simp [charsStart] at h
    | cons c cs =>
      simp only [charsStart, Bool.and_eq_true] at h
      simp only [List.cons_append, charsStart, Bool.and_eq_true]
      exact ⟨h.1, ih h.2⟩

theorem charsStart_self_append (s t : List Char) :
    charsStart (s ++ t) s = true := by
  induction s with
  | nil => simp [charsStart]
  | cons c cs ih => simp [charsStart, ih]

theorem charsHave_append_right {a n : List Char} (b : List Char)
    (h : charsHave a n = true) : charsHave (a ++ b) n = true := by
  induction a with
  | nil =>
    simp only [charsHave, List.isEmpty_iff] at h
    subst h
    cases b with
    | nil => simp [charsHave]
    | cons c cs => simp [charsHave, charsStart]
  | cons c cs ih =>
    simp only [charsHave, Bool.or_eq_true] at h
    rcases h with h | h
    · simp only [List.cons_append, charsHave, Bool.or_eq_true]
      exact Or.inl (charsStart_extend b h)
    · simp only [List.cons_append, charsHave, Bool.or_eq_true]
      exact Or.inr (ih h)

theorem charsHave_append_left {b n : List Char} (a : List Char)
    (h : charsHave b n = true) : charsHave (a ++ b) n = true := by
  induction a with
  | nil => simpa using h
  | cons c cs ih =>
    simp only [List.cons_append, charsHave, Bool.or_eq_true]
    exact Or.inr ih

theorem charsHave_self_append (s t : List Char) :
    charsHave (s ++ t) s = true := by
  cases s with
  | nil =>
    cases t with
    | nil => simp [charsHave]
    | cons c cs => simp [charsHave, charsStart]
  | cons c cs =>
    simp only [List.cons_append, charsHave, Bool.or_eq_true]
    exact Or.inl (charsStart_self_append (c :: cs) t)

theorem charsHave_refl (s : List Char) : charsHave s s = true := by
  simpa using charsHave_self_append s []

/-- The first character of a string, used to tell rendered messages apart. -/
def firstChar (s : String) : Option Char :=
  s.data.head?

theorem firstChar_policyMsg (x : String) :
    firstChar ("Policy " ++ x) = some (Char.ofNat 80) := rfl

theorem duesMsg_ne_valid (pn : String) : duesMsg pn ≠ "valid" := by
  intro h
  have h2 := congrArg firstChar h
  rw [duesMsg, String.append_assoc] at h2
  rw [firstChar_policyMsg] at h2
  simp [firstChar] at h2

theorem outsideMsg_ne_duesMsg (d s e : Nat) (pn pn2 : String) :
    outsideCoverageMsg d s e pn ≠ duesMsg pn2 := by
  intro h
  have h2 := congrArg firstChar h
  rw [duesMsg, String.append_assoc, firstChar_policyMsg] at h2
  have h3 : firstChar (outsideCoverageMsg d s e pn) = some (Char.ofNat 68) := by
    rw [outsideCoverageMsg]
    rw [show ("Date of loss " ++ toString d ++
      " is outside the coverage period (" ++ toString s ++ " to " ++
      toString e ++ ") for policy " ++ pn) =
      "Date of loss " ++ (toString d ++
      (" is outside the coverage period (" ++ (toString s ++ (" to " ++
      (toString e ++ (") for policy " ++ pn)))))) by
        simp [String.append_assoc]]
    rfl
  rw [h3] at h2
  simp at h2

/-- Digit-or-comma test for the dollar-amount pattern class `[\d,]`. -/
def isDigitOrComma (c : Char) : Bool :=
  c.isDigit || c = ','

/-- Match the dollar-amount pattern of `_extract_dollar_amounts`
(`pipelines/langchain_pipeline/tools.py` line 199) right after a dollar
sign: one optional whitespace, then one or more digits/commas, then an
optional dot followed by one or two digits (greedy).  Returns the
captured group and the remaining input, or `none` when the position does
not match. -/
def matchAmount (cs : List Char) : Option (List Char × List Char) :=
  let cs1 := match cs with
    | c :: rest => if isWsChar c then rest else cs
    | [] => cs
  let run := cs1.takeWhile isDigitOrComma
  let rest1 := cs1.dropWhile isDigitOrComma
  if run.isEmpty then none
  else
    match rest1 with
    | c :: d1 :: d2 :: rest3 =>
      if c = '.' && d1.isDigit then
        if d2.isDigit then some (run ++ [c, d1, d2], rest3)
        else some (run ++ [c, d1], d2 :: rest3)
      else some (run, rest1)
    | c :: d1 :: rest2 =>
      if c = '.' && d1.isDigit then some (run ++ [c, d1], rest2)
      else some (run, rest1)
    | _ => some (run, rest1)

/-- Left-to-right non-overlapping scan for `\$` followed by the amount
pattern, as performed by `re.findall` in `_extract_dollar_amounts`.
Fuel-based recursion; `length + 1` fuel always suffices because every
step consumes at least one character. -/
def scanAmountStrs : Nat → List Char → List String
  | 0, _ => []
  | _ + 1, [] => []
  | fuel + 1, c :: cs =>
    if c = '$' then
      match matchAmount cs with
      | some (grp, rest) => String.mk grp :: scanAmountStrs fuel rest
      | none => scanAmountStrs fuel cs
    else scanAmountStrs fuel cs

/-- Value of a digit string read in base 10. -/
def digitsToNat (ds : List Char) : Nat :=
  ds.foldl (fun n c => n * 10 + (c.toNat - 48)) 0

/-- The rational denoted by an integer part, a fraction part and the
fraction's digit count. -/
def ratOfParts (ip fr k : Nat) : ℚ :=
  (ip : ℚ) + (fr : ℚ) / (10 : ℚ) ^ k

/-- Embedding of Python `float()` restricted to strings of digits and
dots (the only shapes the amount and fuzzy-recovery regexes can
produce): the conversion succeeds iff the string has at most one dot and
at least one digit; otherwise `float` raises `ValueError`. -/
def floatOfDigitsDots (cs : List Char) : Option ℚ :=
  if (cs.filter (fun c => c = '.')).length ≤ 1 ∧ cs.any Char.isDigit ∧
      cs.all (fun c => c.isDigit || c = '.') then
    let intPart := cs.takeWhile (fun c => c ≠ '.')
    let rest := cs.dropWhile (fun c => c ≠ '.')
    let frac := rest.drop 1
    some (ratOfParts (digitsToNat intPart) (digitsToNat frac) frac.length)
  else none

/-- The per-match conversion `float(m.replace(",", ""))`. -/
def pyFloatOfAmount (s : String) : Option ℚ :=
  floatOfDigitsDots (s.data.filter (fun c => c ≠ ','))

/-- Embedding of `_extract_dollar_amounts`
(`pipelines/langchain_pipeline/tools.py` lines 197-208): collect the
regex matches, convert each (skipping conversion failures), and keep the
amounts in the inclusive plausibility range `[50, 200000]`. -/
def extractDollarAmounts (text : String) : List ℚ :=
  let amounts := (scanAmountStrs (text.length + 1) text.data).filterMap
    pyFloatOfAmount
  amounts.filter (fun a => 50 ≤ a ∧ a ≤ 200000)

/-- Outcome of the DuckDuckGo call inside `web_search_repair_cost`:
either the search raised (`failure`) or it returned a list of result
items, each with a title and a body. -/
inductive SearchOutcome where
  | failure (err : String)
  | results (items : List (String × String))
  deriving DecidableEq, Repr

/-- Plain rendering of a rational, standing in for Python's `:,.2f`
number formatting inside human-readable summaries (no claim depends on
the exact rendering). -/
def fmtRat (q : ℚ) : String :=
  toString q

/-- The snippet block `"\n".join(f"- |title|: |body|")` built by
`web_search_repair_cost` from the search results. -/
def snippetsText (items : List (String × String)) : String :=
  String.intercalate "\n" (items.map (fun r => "- " ++ r.1 ++ ": " ++ r.2))

/-- Embedding of `web_search_repair_cost`
(`pipelines/langchain_pipeline/tools.py` lines 104-158).  The DuckDuckGo
call is an oracle `SearchOutcome`; the returned triple is
`(market_estimate, is_inflated, summary_text)`. -/
def web_search_repair_cost (claim : ClaimInfo) (inflation_threshold : ℚ)
    (outcome : SearchOutcome) : Option ℚ × Bool × String :=
  match outcome with
  | .failure err =>
    (none, false, "Web search unavailable (" ++ err ++ "). Price check skipped.")
  | .results [] =>
    (none, false, "No web search results found. Price check skipped.")
  | .results items =>
    let snippets := snippetsText items
    let amounts := extractDollarAmounts snippets
    if amounts.isEmpty then
      (none, false,
        "Web search returned results but no clear dollar estimates.\nSnippets:\n"
          ++ snippets)
    else
      let market_estimate := amounts.sum / (amounts.length : ℚ)
      let threshold_amount := market_estimate * (1 + inflation_threshold)
      let is_inflated := decide (claim.estimated_repair_cost > threshold_amount)
      (some market_estimate, is_inflated,
        "Market estimate: $" ++ fmtRat market_estimate ++ " (based on " ++
          toString amounts.length ++ " data points). Claimed: $" ++
          fmtRat claim.estimated_repair_cost ++ ". Threshold (" ++
          toString (Int.floor (inflation_threshold * 100)) ++
          "% above market): $" ++ fmtRat threshold_amount ++ ". " ++
          (if is_inflated then "INFLATED — claimed cost exceeds threshold."
            else "Within acceptable range."))

/-- One trace dict appended by a graph node (`chains.py` `_log_node` and
the per-node annotations): the node name, the elapsed duration, and the
stage-specific annotations already rendered to strings (`_format_trace`
renders every value with `str`).  The `entered_at` key, which
`_format_trace` skips, is not modelled; wall-clock durations enter as
data, not from a clock. -/
structure TraceEntry where
  node : String
  elapsed : ℚ
  extras : List (String × String)
  deriving DecidableEq, Repr

/-- Python `str()` of a boolean. -/
def pyBoolStr (b : Bool) : String :=
  if b then "True" else "False"

/-- Embedding of the LangGraph `ClaimState` TypedDict (`chains.py`,
`total=False`): every key is absent (`none`) until its producing node
has run. -/
structure GraphState where
  claim : Option ClaimInfo
  is_valid : Option Bool
  validation_reason : Option String
  policy_queries : Option (List String)
  policy_text : Option (List String)
  market_cost_estimate : Option (Option ℚ)
  is_inflated : Option Bool
  market_cost_info : Option String
  recommendation : Option PolicyRecommendation
  decision : Option ClaimDecision
  trace : List TraceEntry
  deriving DecidableEq, Repr

/-- Oracle bundle for the external capabilities the graph nodes call:
the coverage CSV, the LLM-generated policy queries, the vector-store
chunks, the web-search outcome, the configured inflation threshold, and
the LLM recommendation. -/
structure GraphEnv where
  csv_path : String
  csv : Option (List PolicyRecord)
  queries : List String
  chunks : List String
  inflation_threshold : ℚ
  search : SearchOutcome
  recommendation : PolicyRecommendation
  deriving DecidableEq, Repr

/-- Node `parse_claim` (`chains.py` lines 94-100); parsing is modelled
as succeeding (schema validation of the raw payload is the API
boundary's concern). -/
def node_parse_claim (claim_data : ClaimInfo) (s : GraphState) : GraphState :=
  { s with claim := some claim_data,
           trace := s.trace ++ [⟨"parse_claim", 0, []⟩] }

/-- Node `validate_claim` (`chains.py` lines 103-111).  The `none` arm
is unreachable in the compiled graph (`parse_claim` always runs first). -/
def node_validate_claim (env : GraphEnv) (s : GraphState) : GraphState :=
  match s.claim with
  | some claim =>
    let r := validate_claim claim env.csv_path env.csv
    { s with is_valid := some r.1, validation_reason := some r.2,
             trace := s.trace ++ [⟨"validate_claim", 0,
               [("is_valid", pyBoolStr r.1), ("reason", r.2)]⟩] }
  | none => s

/-- Node `check_policy` (`chains.py` lines 114-127): query generation
and retrieval are oracle values in the environment. -/
def node_check_policy (env : GraphEnv) (s : GraphState) : GraphState :=
  { s with policy_queries := some env.queries,
           policy_text := some env.chunks,
           trace := s.trace ++ [⟨"check_policy", 0,
             [("queries", toString env.queries),
              ("chunks_retrieved", toString env.chunks.length)]⟩] }

/-- Node `price_check` (`chains.py` lines 130-146). -/
def node_price_check (env : GraphEnv) (s : GraphState) : GraphState :=
  match s.claim with
  | some claim =>
    let r := web_search_repair_cost claim env.inflation_threshold env.search
    { s with market_cost_estimate := some r.1, is_inflated := some r.2.1,
             market_cost_info := some r.2.2,
             trace := s.trace ++ [⟨"price_check", 0,
               [("market_estimate", toString r.1),
                ("is_inflated", pyBoolStr r.2.1)]⟩] }
  | none => s

/-- Node `generate_recommendation` (`chains.py` lines 149-162). -/
def node_generate_recommendation (env : GraphEnv) (s : GraphState) :
    GraphState :=
  { s with recommendation := some env.recommendation,
           trace := s.trace ++ [⟨"generate_recommendation", 0,
             [("recommendation",
               env.recommendation.recommendation_summary)]⟩] }

/-- Node `finalize_decision` (`chains.py` lines 165-180): covered, with
deductible/payout defaulted from the recommendation via Python `or`. -/
def node_finalize_decision (s : GraphState) : GraphState :=
  match s.claim, s.recommendation with
  | some claim, some rec =>
    let decision : ClaimDecision :=
      { claim_number := claim.claim_number, covered := true,
        deductible := rec.deductible.getD 0,
        recommended_payout := rec.settlement_amount.getD 0,
        notes := some rec.recommendation_summary }
    { s with decision := some decision,
             trace := s.trace ++ [⟨"finalize_decision", 0, []⟩] }
  | _, _ => s

/-- Node `finalize_invalid` (`chains.py` lines 183-197). -/
def node_finalize_invalid (s : GraphState) : GraphState :=
  match s.claim, s.validation_reason with
  | some claim, some reason =>
    let decision : ClaimDecision :=
      { claim_number := claim.claim_number, covered := false,
        deductible := 0, recommended_payout := 0,
        notes := some ("Claim rejected — " ++ reason) }
    { s with decision := some decision,
             trace := s.trace ++ [⟨"finalize_invalid", 0, []⟩] }
  | _, _ => s

/-- Node `finalize_inflated` (`chains.py` lines 200-217). -/
def node_finalize_inflated (s : GraphState) : GraphState :=
  match s.claim with
  | some claim =>
    let decision : ClaimDecision :=
      { claim_number := claim.claim_number, covered := false,
        deductible := 0, recommended_payout := 0,
        notes := some ("Claim rejected — estimated repair cost appears inflated. "
          ++ s.market_cost_info.getD "") }
    { s with decision := some decision,
             trace := s.trace ++ [⟨"finalize_inflated", 0, []⟩] }
  | none => s

/-- Router after validation (`chains.py` lines 224-226); `state.get` on
a missing key is `None`, which is falsy. -/
def route_after_validate (s : GraphState) : String :=
  if s.is_valid.getD false then "check_policy" else "finalize_invalid"

/-- Router after the price check (`chains.py` lines 229-231). -/
def route_after_price_check (s : GraphState) : String :=
  if s.is_inflated.getD false then "finalize_inflated"
  else "generate_recommendation"

/-- One step of the compiled graph: run the named node and produce the
successor (`none` at END), following the edges registered in
`build_claim_graph` (`chains.py` lines 254-290). -/
def graphStep (env : GraphEnv) (claim_data : ClaimInfo) (name : String)
    (s : GraphState) : GraphState × Option String :=
  if name = "parse_claim" then
    (node_parse_claim claim_data s, some "validate_claim")
  else if name = "validate_claim" then
    let s2 := node_validate_claim env s
    (s2, some (route_after_validate s2))
  else if name = "check_policy" then
    (node_check_policy env s, some "price_check")
  else if name = "price_check" then
    let s2 := node_price_check env s
    (s2, some (route_after_price_check s2))
  else if name = "generate_recommendation" then
    (node_generate_recommendation env s, some "finalize_decision")
  else if name = "finalize_decision" then
    (node_finalize_decision s, none)
  else if name = "finalize_invalid" then
    (node_finalize_invalid s, none)
  else if name = "finalize_inflated" then
    (node_finalize_inflated s, none)
  else (s, none)

/-- The state before any node has run. -/
def emptyGraphState : GraphState :=
  ⟨none, none, none, none, none, none, none, none, none, none, []⟩

/-- Fuel-bounded execution loop, accumulating visited node names in
reverse; the fuel models the LangGraph recursion limit. -/
def runGraphAux (env : GraphEnv) (claim_data : ClaimInfo) :
    Nat → String → GraphState → List String → GraphState × List String
  | 0, _, s, visited => (s, visited.reverse)
  | fuel + 1, name, s, visited =>
    match graphStep env claim_data name s with
    | (s2, none) => (s2, (name :: visited).reverse)
    | (s2, some nxt) => runGraphAux env claim_data fuel nxt s2 (name :: visited)

/-- Run the compiled graph from the entry point with the given recursion
limit; returns the final state and the visited node names in execution
order. -/
def runGraph (env : GraphEnv) (claim_data : ClaimInfo)
    (recursion_limit : Nat) : GraphState × List String :=
  runGraphAux env claim_data recursion_limit "parse_claim" emptyGraphState []

/-- C4: `validate_claim` performs its three checks in the strict source
order — policy exists, no outstanding dues, date within coverage —
short-circuiting on the first failing check (the failure outcome of an
earlier check holds for every value of the fields the later checks would
read), and returns `true` iff all three pass, in which case the reason is
exactly the sentinel literal `"valid"`. -/
theorem validate_claim_ordered_short_circuit
    (claim : ClaimInfo) (csv_path : String) (df : List PolicyRecord) :
    (df.find? (fun r => r.policy_number == claim.policy_number) = none →
      validate_claim claim csv_path (some df) =
        (false, policyNotFoundMsg claim.policy_number)) ∧
    (∀ record,
      df.find? (fun r => r.policy_number == claim.policy_number) = some record →
      (duesRemaining record = true →
        validate_claim claim csv_path (some df) =
          (false, duesMsg claim.policy_number)) ∧
      (duesRemaining record = false →
        ¬ (record.coverage_start_date ≤ claim.date_of_loss ∧
            claim.date_of_loss ≤ record.coverage_end_date) →
        validate_claim claim csv_path (some df) =
          (false, outsideCoverageMsg claim.date_of_loss
            record.coverage_start_date record.coverage_end_date
            claim.policy_number)) ∧
      (duesRemaining record = false →
        record.coverage_start_date ≤ claim.date_of_loss →
        claim.date_of_loss ≤ record.coverage_end_date →
        validate_claim claim csv_path (some df) = (true, "valid"))) ∧
    ((validate_claim claim csv_path (some df)).1 = true ↔
      ∃ record,
        df.find? (fun r => r.policy_number == claim.policy_number) = some record ∧
        duesRemaining record = false ∧
        record.coverage_start_date ≤ claim.date_of_loss ∧
        claim.date_of_loss ≤ record.coverage_end_date) ∧
    ((validate_claim claim csv_path (some df)).1 = true →
      (validate_claim claim csv_path (some df)).2 = "valid") := by
  refine ⟨?_, ?_, ?_, ?_⟩
  · intro h
    simp [validate_claim, h]
  · intro record h
    refine ⟨?_, ?_, ?_⟩
    · intro hd
      simp [validate_claim, h, hd]
    · intro hd hrange
      simp [validate_claim, h, hd, hrange]
    · intro hd h1 h2
      simp [validate_claim, h, hd, h1, h2]
  · constructor
    · intro hv
      cases hf : df.find? (fun r => r.policy_number == claim.policy_number) with
      | none => simp [validate_claim, hf] at hv
      | some record =>
        by_cases hd : duesRemaining record
        · simp [validate_claim, hf, hd] at hv
        · by_cases hr : record.coverage_start_date ≤ claim.date_of_loss ∧
            claim.date_of_loss ≤ record.coverage_end_date
          · exact ⟨record, rfl, by simpa using hd, hr.1, hr.2⟩
          · simp [validate_claim, hf, hd, hr] at hv
    · rintro ⟨record, hf, hd, h1, h2⟩
      simp [validate_claim, hf, hd, h1, h2]
  · intro hv
    cases hf : df.find? (fun r => r.policy_number == claim.policy_number) with
    | none => simp [validate_claim, hf] at hv ⊢
    | some record =>
      by_cases hd : duesRemaining record
      · simp [validate_claim, hf, hd] at hv
      · by_cases hr : record.coverage_start_date ≤ claim.date_of_loss ∧
          claim.date_of_loss ≤ record.coverage_end_date
        · simp [validate_claim, hf, hd, hr]
        · simp [validate_claim, hf, hd, hr] at hv

/-- Fixed sample record used by the validation witnesses. -/
def wRecord : PolicyRecord :=
  { policy_number := "PN-2"
    premium_dues_remaining := "False"
    coverage_start_date := 100
    coverage_end_date := 200 }

/-- Fixed sample claim used by the validation witnesses. -/
def wClaim : ClaimInfo :=
  { claim_number := "CLM-001"
    policy_number := "PN-2"
    claimant_name := "Jane Doe"
    date_of_loss := 150
    loss_description := "Rear-end collision"
    estimated_repair_cost := 3500
    vehicle_details := some "2022 Toyota Camry" }

theorem validate_claim_ordered_short_circuit_witness :
    [wRecord].find? (fun r => r.policy_number == wClaim.policy_number) =
      some wRecord ∧
    duesRemaining wRecord = false ∧
    wRecord.coverage_start_date ≤ wClaim.date_of_loss ∧
    wClaim.date_of_loss ≤ wRecord.coverage_end_date ∧
    validate_claim wClaim "coverage_data.csv" (some [wRecord]) =
      (true, "valid") :=
  ⟨by decide, by decide, by decide, by decide,
    ((validate_claim_ordered_short_circuit wClaim "coverage_data.csv"
      [wRecord]).2.1 wRecord (by decide)).2.2 (by decide) (by decide)
      (by decide)⟩

/-- C5: for a claim whose policy row is found and carries no outstanding
dues, with coverage window `[s, e]` (`s ≤ e`): the validator accepts the
boundary dates `s` and `e`, and rejects `e + 1` with a reason that cites
"outside" and states the claim date and both ends of the window. -/
theorem validate_claim_coverage_boundaries
    (claim : ClaimInfo) (csv_path : String) (df : List PolicyRecord)
    (record : PolicyRecord)
    (hfind : df.find? (fun r => r.policy_number == claim.policy_number) =
      some record)
    (hdues : duesRemaining record = false)
    (hwin : record.coverage_start_date ≤ record.coverage_end_date) :
    (validate_claim { claim with date_of_loss := record.coverage_start_date }
      csv_path (some df)).1 = true ∧
    (validate_claim { claim with date_of_loss := record.coverage_end_date }
      csv_path (some df)).1 = true ∧
    validate_claim { claim with date_of_loss := record.coverage_end_date + 1 }
      csv_path (some df) =
      (false, outsideCoverageMsg (record.coverage_end_date + 1)
        record.coverage_start_date record.coverage_end_date
        claim.policy_number) ∧
    strHas (outsideCoverageMsg (record.coverage_end_date + 1)
      record.coverage_start_date record.coverage_end_date
      claim.policy_number) "outside" = true ∧
    strHas (outsideCoverageMsg (record.coverage_end_date + 1)
      record.coverage_start_date record.coverage_end_date
      claim.policy_number) (toString (record.coverage_end_date + 1)) = true ∧
    strHas (outsideCoverageMsg (record.coverage_end_date + 1)
      record.coverage_start_date record.coverage_end_date
      claim.policy_number) (toString record.coverage_start_date) = true ∧
    strHas (outsideCoverageMsg (record.coverage_end_date + 1)
      record.coverage_start_date record.coverage_end_date
      claim.policy_number) (toString record.coverage_end_date) = true := by
  have hfind2 : ∀ d, df.find? (fun r =>
      r.policy_number == ({ claim with date_of_loss := d } :
        ClaimInfo).policy_number) = some record := fun _ => hfind
  refine ⟨?_, ?_, ?_, ?_, ?_, ?_, ?_⟩
  · simp [validate_claim, hfind2, hdues, hwin]
  · simp [validate_claim, hfind2, hdues, hwin]
  · have hout : ¬ (record.coverage_start_date ≤ record.coverage_end_date + 1 ∧
        record.coverage_end_date + 1 ≤ record.coverage_end_date) := by omega
    simp [validate_claim, hfind2, hdues, hout]
  · simp only [strHas, outsideCoverageMsg, String.data_append,
      List.append_assoc]
    refine charsHave_append_left _ (charsHave_append_left _ ?_)
    exact charsHave_append_right _ (by decide)
  · simp only [strHas, outsideCoverageMsg, String.data_append,
      List.append_assoc]
    exact charsHave_append_left _ (charsHave_self_append _ _)
  · simp only [strHas, outsideCoverageMsg, String.data_append,
      List.append_assoc]
    refine charsHave_append_left _ (charsHave_append_left _
      (charsHave_append_left _ ?_))
    exact charsHave_self_append _ _
  · simp only [strHas, outsideCoverageMsg, String.data_append,
      List.append_assoc]
    refine charsHave_append_left _ (charsHave_append_left _
      (charsHave_append_left _ (charsHave_append_left _
      (charsHave_append_left _ ?_))))
    exact charsHave_self_append _ _

theorem validate_claim_coverage_boundaries_witness :
    [wRecord].find? (fun r => r.policy_number == wClaim.policy_number) =
      some wRecord ∧
    duesRemaining wRecord = false ∧
    wRecord.coverage_start_date ≤ wRecord.coverage_end_date ∧
    (validate_claim { wClaim with date_of_loss := wRecord.coverage_start_date }
      "coverage_data.csv" (some [wRecord])).1 = true :=
  ⟨by decide, by decide, by decide,
    (validate_claim_coverage_boundaries wClaim "coverage_data.csv" [wRecord]
      wRecord (by decide) (by decide) (by decide)).1⟩

/-- C10: given a matching policy row, the dues check rejects (with the
dues message) iff the stored cell, rendered to a string, stripped and
lowercased, is exactly "true"; any other value — for example "1", "yes",
or an empty cell — falls through to the date check. -/
theorem dues_check_exact_string
    (claim : ClaimInfo) (csv_path : String) (df : List PolicyRecord)
    (record : PolicyRecord)
    (hfind : df.find? (fun r => r.policy_number == claim.policy_number) =
      some record) :
    (validate_claim claim csv_path (some df) =
        (false, duesMsg claim.policy_number) ↔
      pyLower (pyStrip record.premium_dues_remaining) = "true") ∧
    (record.premium_dues_remaining = "1" ∨
        record.premium_dues_remaining = "yes" ∨
        record.premium_dues_remaining = "" →
      validate_claim claim csv_path (some df) =
        (if record.coverage_start_date ≤ claim.date_of_loss ∧
            claim.date_of_loss ≤ record.coverage_end_date
          then (true, "valid")
          else (false, outsideCoverageMsg claim.date_of_loss
            record.coverage_start_date record.coverage_end_date
            claim.policy_number))) := by
  constructor
  · constructor
    · intro hv
      by_cases hd : duesRemaining record
      · simpa [duesRemaining] using hd
      · exfalso
        by_cases hr : record.coverage_start_date ≤ claim.date_of_loss ∧
            claim.date_of_loss ≤ record.coverage_end_date
        · simp [validate_claim, hfind, hd, hr] at hv
        · simp [validate_claim, hfind, hd, hr] at hv
          exact outsideMsg_ne_duesMsg _ _ _ _ _ hv
    · intro heq
      have hd : duesRemaining record = true := by
        simp [duesRemaining, heq]
      simp [validate_claim, hfind, hd]
  · intro hmem
    have hd : duesRemaining record = false := by
      rcases hmem with h | h | h <;> simp only [duesRemaining, h] <;> decide
    by_cases hr : record.coverage_start_date ≤ claim.date_of_loss ∧
        claim.date_of_loss ≤ record.coverage_end_date
    · simp [validate_claim, hfind, hd, hr]
    · simp [validate_claim, hfind, hd, hr]

/-- Sample record with a non-boolean dues cell for the C10 witness. -/
def wRecordYes : PolicyRecord :=
  { policy_number := "PN-2"
    premium_dues_remaining := "yes"
    coverage_start_date := 100
    coverage_end_date := 200 }

theorem dues_check_exact_string_witness :
    [wRecordYes].find? (fun r => r.policy_number == wClaim.policy_number) =
      some wRecordYes ∧
    wRecordYes.premium_dues_remaining = "yes" ∧
    validate_claim wClaim "coverage_data.csv" (some [wRecordYes]) =
      (if wRecordYes.coverage_start_date ≤ wClaim.date_of_loss ∧
          wClaim.date_of_loss ≤ wRecordYes.coverage_end_date
        then (true, "valid")
        else (false, outsideCoverageMsg wClaim.date_of_loss
          wRecordYes.coverage_start_date wRecordYes.coverage_end_date
          wClaim.policy_number)) :=
  ⟨by decide, by decide,
    (dues_check_exact_string wClaim "coverage_data.csv" [wRecordYes]
      wRecordYes (by decide)).2 (Or.inr (Or.inl (by decide)))⟩

/-- C2: every run of the deterministic workflow visits exactly one of
the three terminal nodes; `finalize_invalid` iff validation failed,
`finalize_inflated` iff validation succeeded and the inflation flag is
true, `finalize_decision` iff validation succeeded and the flag is
false; and the run ends with exactly one produced decision. -/
theorem workflow_exactly_one_terminal (env : GraphEnv) (claim : ClaimInfo) :
    ((runGraph env claim 25).2.filter (fun n =>
      n = "finalize_invalid" ∨ n = "finalize_inflated" ∨
        n = "finalize_decision")).length = 1 ∧
    ("finalize_invalid" ∈ (runGraph env claim 25).2 ↔
      (validate_claim claim env.csv_path env.csv).1 = false) ∧
    ("finalize_inflated" ∈ (runGraph env claim 25).2 ↔
      (validate_claim claim env.csv_path env.csv).1 = true ∧
      (web_search_repair_cost claim env.inflation_threshold env.search).2.1 =
        true) ∧
    ("finalize_decision" ∈ (runGraph env claim 25).2 ↔
      (validate_claim claim env.csv_path env.csv).1 = true ∧
      (web_search_repair_cost claim env.inflation_threshold env.search).2.1 =
        false) ∧
    (∃ d, (runGraph env claim 25).1.decision = some d) := by
  cases hv : (validate_claim claim env.csv_path env.csv).1 with
  | false =>
    simp [runGraph, runGraphAux, graphStep, node_parse_claim,
      node_validate_claim, route_after_validate, node_finalize_invalid,
      emptyGraphState, hv]
  | true =>
    cases hp : (web_search_repair_cost claim env.inflation_threshold
        env.search).2.1 with
    | false =>
      simp [runGraph, runGraphAux, graphStep, node_parse_claim,
        node_validate_claim, route_after_validate, node_check_policy,
        node_price_check, route_after_price_check,
        node_generate_recommendation, node_finalize_decision,
        emptyGraphState, hv, hp]
    | true =>
      simp [runGraph, runGraphAux, graphStep, node_parse_claim,
        node_validate_claim, route_after_validate, node_check_policy,
        node_price_check, route_after_price_check, node_finalize_inflated,
        emptyGraphState, hv, hp]

/-- Search-result snippets whose bodies carry the spec's concrete
amounts 1000, 1100 and 1200 dollars. -/
def wSnippets : List (String × String) :=
  [("Repair guide", "typical cost $1,000 for bumper"),
   ("Shop survey", "estimates around $1,100 in 2024"),
   ("Insurance blog", "up to $1,200 including paint")]

set_option maxRecDepth 8000 in
theorem scan_wSnippets :
    scanAmountStrs ((snippetsText wSnippets).length + 1)
      (snippetsText wSnippets).data = ["1,000", "1,100", "1,200"] := by
  decide

theorem extract_wSnippets :
    extractDollarAmounts (snippetsText wSnippets) = [1000, 1100, 1200] := by
  have h2 : pyFloatOfAmount "1,000" = some (ratOfParts 1000 0 0) := rfl
  have h3 : pyFloatOfAmount "1,100" = some (ratOfParts 1100 0 0) := rfl
  have h4 : pyFloatOfAmount "1,200" = some (ratOfParts 1200 0 0) := rfl
  simp only [extractDollarAmounts]
  rw [scan_wSnippets]
  simp only [List.filterMap_cons, List.filterMap_nil, h2, h3, h4]
  norm_num [ratOfParts, List.filter]

/-- C3: with at least one extracted in-range amount, the market estimate
is the arithmetic mean of the extracted amounts and the inflation flag
is the strict comparison `claimed > mean * (1 + threshold)`; at the
spec's concrete instance (amounts 1000/1100/1200, threshold 0.40) the
mean is 1100, the threshold amount is 1540, claimed 1600 is flagged and
claimed 1500 is not. -/
theorem price_check_mean_and_threshold
    (claim : ClaimInfo) (t : ℚ) (items : List (String × String))
    (hamts : extractDollarAmounts (snippetsText items) ≠ []) :
    ((web_search_repair_cost claim t (.results items)).1 =
      some ((extractDollarAmounts (snippetsText items)).sum /
        ((extractDollarAmounts (snippetsText items)).length : ℚ)) ∧
    ((web_search_repair_cost claim t (.results items)).2.1 = true ↔
      claim.estimated_repair_cost >
        ((extractDollarAmounts (snippetsText items)).sum /
          ((extractDollarAmounts (snippetsText items)).length : ℚ)) *
          (1 + t))) ∧
    (extractDollarAmounts (snippetsText wSnippets) = [1000, 1100, 1200] ∧
      (1100 : ℚ) * (1 + (0.40 : ℚ)) = 1540 ∧
      (web_search_repair_cost { wClaim with estimated_repair_cost := 1600 }
        (0.40 : ℚ) (.results wSnippets)).1 = some 1100 ∧
      (web_search_repair_cost { wClaim with estimated_repair_cost := 1600 }
        (0.40 : ℚ) (.results wSnippets)).2.1 = true ∧
      (web_search_repair_cost { wClaim with estimated_repair_cost := 1500 }
        (0.40 : ℚ) (.results wSnippets)).2.1 = false) := by
  have hgen : ∀ (c : ClaimInfo) (u : ℚ) (its : List (String × String)),
      extractDollarAmounts (snippetsText its) ≠ [] →
      ((web_search_repair_cost c u (.results its)).1 =
        some ((extractDollarAmounts (snippetsText its)).sum /
          ((extractDollarAmounts (snippetsText its)).length : ℚ)) ∧
      ((web_search_repair_cost c u (.results its)).2.1 = true ↔
        c.estimated_repair_cost >
          ((extractDollarAmounts (snippetsText its)).sum /
            ((extractDollarAmounts (snippetsText its)).length : ℚ)) *
            (1 + u))) := by
    intro c u its ha
    cases its with
    | nil => exact absurd rfl ha
    | cons it rest =>
      constructor
      · simp [web_search_repair_cost, List.isEmpty_iff, ha]
      · simp [web_search_repair_cost, List.isEmpty_iff, ha]
  have hne : extractDollarAmounts (snippetsText wSnippets) ≠ [] := by
    simp [extract_wSnippets]
  have hmean : (extractDollarAmounts (snippetsText wSnippets)).sum /
      ((extractDollarAmounts (snippetsText wSnippets)).length : ℚ) = 1100 := by
    rw [extract_wSnippets]
    norm_num
  refine ⟨hgen claim t items hamts, extract_wSnippets, by norm_num, ?_, ?_, ?_⟩
  · rw [(hgen { wClaim with estimated_repair_cost := 1600 } (0.40 : ℚ)
      wSnippets hne).1, hmean]
  · rw [(hgen { wClaim with estimated_repair_cost := 1600 } (0.40 : ℚ)
      wSnippets hne).2, hmean]
    norm_num
  · have h2 := (hgen { wClaim with estimated_repair_cost := 1500 } (0.40 : ℚ)
      wSnippets hne).2
    rw [hmean] at h2
    have h3 : ¬ ((1500 : ℚ) > 1100 * (1 + (0.40 : ℚ))) := by norm_num
    cases hb : (web_search_repair_cost
        { wClaim with estimated_repair_cost := 1500 } (0.40 : ℚ)
        (.results wSnippets)).2.1 with
    | false => rfl
    | true => exact absurd (h2.mp hb) h3

theorem price_check_mean_and_threshold_witness :
    extractDollarAmounts (snippetsText wSnippets) ≠ [] ∧
    (web_search_repair_cost { wClaim with estimated_repair_cost := 1600 }
      (0.40 : ℚ) (.results wSnippets)).1 =
      some ((extractDollarAmounts (snippetsText wSnippets)).sum /
        ((extractDollarAmounts (snippetsText wSnippets)).length : ℚ)) :=
  ⟨by simp [extract_wSnippets],
    (price_check_mean_and_threshold
      { wClaim with estimated_repair_cost := 1600 } (0.40 : ℚ) wSnippets
      (by simp [extract_wSnippets])).1.1⟩

/-- C6: when the search capability fails, returns zero results, or
yields no amount surviving the plausibility filter, the price check
returns an absent estimate with the inflated flag false, and the router
sends the claim to `generate_recommendation`, never to
`finalize_inflated`. -/
theorem price_check_no_data_routes_like_not_inflated
    (claim : ClaimInfo) (t : ℚ) (outcome : SearchOutcome)
    (h : (∃ e, outcome = .failure e) ∨ outcome = .results [] ∨
      (∃ items, outcome = .results items ∧
        extractDollarAmounts (snippetsText items) = [])) :
    (web_search_repair_cost claim t outcome).1 = none ∧
    (web_search_repair_cost claim t outcome).2.1 = false ∧
    (∀ env : GraphEnv, env.inflation_threshold = t → env.search = outcome →
      ∀ s : GraphState, s.claim = some claim →
        route_after_price_check (node_price_check env s) =
          "generate_recommendation") := by
  have hmain : (web_search_repair_cost claim t outcome).1 = none ∧
      (web_search_repair_cost claim t outcome).2.1 = false := by
    rcases h with ⟨e, he⟩ | he | ⟨items, he, hemp⟩
    · subst he
      exact ⟨rfl, rfl⟩
    · subst he
      exact ⟨rfl, rfl⟩
    · subst he
      cases items with
      | nil => exact ⟨rfl, rfl⟩
      | cons it its =>
        constructor
        · simp [web_search_repair_cost, List.isEmpty_iff, hemp]
        · simp [web_search_repair_cost, List.isEmpty_iff, hemp]
  refine ⟨hmain.1, hmain.2, ?_⟩
  intro env ht hs s hclaim
  simp [node_price_check, hclaim, route_after_price_check, ht, hs, hmain.2]

theorem price_check_no_data_routes_like_not_inflated_witness :
    (web_search_repair_cost wClaim (0.40 : ℚ)
      (.failure "connection reset")).1 = none ∧
    (web_search_repair_cost wClaim (0.40 : ℚ)
      (.failure "connection reset")).2.1 = false :=
  ⟨(price_check_no_data_routes_like_not_inflated wClaim (0.40 : ℚ)
      (.failure "connection reset")
      (Or.inl ⟨"connection reset", rfl⟩)).1,
    (price_check_no_data_routes_like_not_inflated wClaim (0.40 : ℚ)
      (.failure "connection reset")
      (Or.inl ⟨"connection reset", rfl⟩)).2.1⟩

/-- The ChromaDB collection as `retrieve_policy_text` observes it: its
document count and the per-query document/distance lists its `query`
call returns. -/
structure ChromaCollection where
  count : Nat
  documents : List (List String)
  distances : List (List ℚ)
  deriving DecidableEq, Repr

/-- The vector-store environment: whether the persist directory exists
and, when `get_collection` succeeds, the collection. -/
structure ChromaEnv where
  persist_dir_exists : Bool
  collection : Option ChromaCollection
  deriving DecidableEq, Repr

/-- Inner loop of the dedup-and-collect pass (`core/retrieval.py` lines
91-101): walk one query's zipped documents/distances, appending each
document not seen before.  The source keeps a `seen` set alongside
`chunks`; their members always coincide, so membership in `chunks`
stands for the set. -/
def addChunks (chunks : List String) (docs : List (String × ℚ)) :
    List String :=
  docs.foldl (fun acc d => if d.1 ∈ acc then acc else acc ++ [d.1]) chunks

/-- Outer loop of the dedup-and-collect pass over the zipped per-query
lists. -/
def collectChunks (documents : List (List String))
    (distances : List (List ℚ)) : List String :=
  (documents.zip distances).foldl (fun acc p => addChunks acc (p.1.zip p.2)) []

/-- Message raised when the persist directory is missing. -/
def persistDirMsg (chroma_persist_dir : String) : String :=
  "ChromaDB persist directory not found: " ++ chroma_persist_dir ++
    ". Run \x27make ingest\x27 first."

/-- Message raised when the collection cannot be obtained. -/
def collectionMsg (collection_name : String) : String :=
  "Collection \x27" ++ collection_name ++ "\x27 not found in ChromaDB. " ++
    "Run \x27make ingest\x27 first to populate the vector store."

/-- Embedding of `core/retrieval.py` `retrieve_policy_text`: a raised
`FileNotFoundError` is an `Except.error` carrying the message; an empty
collection short-circuits to an empty chunk list before any embedding
or query work. -/
def retrieve_policy_text (queries : List String)
    (chroma_persist_dir collection_name : String) (env : ChromaEnv) :
    Except String (List String) :=
  if env.persist_dir_exists = false then
    .error (persistDirMsg chroma_persist_dir)
  else
    match env.collection with
    | none => .error (collectionMsg collection_name)
    | some col =>
      if col.count = 0 then .ok []
      else .ok (collectChunks col.documents col.distances)

/-- C7: an existing but empty collection returns an empty list without
raising, whereas a missing persist directory or an unobtainable
collection raises a fatal error; the two conditions never produce the
same outcome (an error case is never an `ok`). -/
theorem retrieval_empty_vs_missing
    (queries : List String) (dir cname : String) (env : ChromaEnv) :
    (env.persist_dir_exists = true → ∀ col, env.collection = some col →
      col.count = 0 →
      retrieve_policy_text queries dir cname env = .ok []) ∧
    (env.persist_dir_exists = false →
      retrieve_policy_text queries dir cname env = .error (persistDirMsg dir)) ∧
    (env.persist_dir_exists = true → env.collection = none →
      retrieve_policy_text queries dir cname env = .error (collectionMsg cname)) ∧
    ((env.persist_dir_exists = false ∨ env.collection = none) →
      ¬ ∃ chunks, retrieve_policy_text queries dir cname env = .ok chunks) := by
  refine ⟨?_, ?_, ?_, ?_⟩
  · intro hdir col hcol hcount
    simp [retrieve_policy_text, hdir, hcol, hcount]
  · intro hdir
    simp [retrieve_policy_text, hdir]
  · intro hdir hcol
    simp [retrieve_policy_text, hdir, hcol]
  · rintro (hdir | hcol) ⟨chunks, hok⟩
    · simp [retrieve_policy_text, hdir] at hok
    · cases hdir : env.persist_dir_exists with
      | false => simp [retrieve_policy_text, hdir] at hok
      | true => simp [retrieve_policy_text, hdir, hcol] at hok

/-- Empty-but-present collection used by the C7 witness. -/
def wEmptyEnv : ChromaEnv :=
  { persist_dir_exists := true
    collection := some { count := 0, documents := [], distances := [] } }

theorem retrieval_empty_vs_missing_witness :
    wEmptyEnv.persist_dir_exists = true ∧
    retrieve_policy_text ["collision coverage"] "data/chroma" "policies"
      wEmptyEnv = .ok [] :=
  ⟨by decide,
    (retrieval_empty_vs_missing ["collision coverage"] "data/chroma"
      "policies" wEmptyEnv).1 (by decide)
      { count := 0, documents := [], distances := [] } (by decide) (by decide)⟩

/-- Two-decimal rendering of a rational duration, standing in for
Python's `:.2f` float format (the exact rounding mode is not
load-bearing for any claim). -/
def fmt2 (q : ℚ) : String :=
  let cents : ℤ := Int.floor (q * 100 + 1 / 2)
  let f := (cents % 100).natAbs
  toString (cents / 100) ++ "." ++ (if f < 10 then "0" else "") ++ toString f

/-- Rendering of one trace entry by `_format_trace`
(`langchain_pipeline/pipeline.py` lines 102-115): indent, bracketed node
name, elapsed seconds, and — when annotations exist — the pipe-joined
`key=value` pairs after an em-dash. -/
def formatEntry (e : TraceEntry) : String :=
  let extra := String.intercalate " | "
    (e.extras.map (fun kv => kv.1 ++ "=" ++ kv.2))
  "  [" ++ e.node ++ "] " ++ fmt2 e.elapsed ++ "s" ++
    (if e.extras.isEmpty then "" else " — " ++ extra)

/-- Embedding of `_format_trace`: one rendered line per entry. -/
def format_trace (trace : List TraceEntry) : String :=
  String.intercalate "\n" (trace.map formatEntry)

/-- Embedding of the trace-attachment step of
`LangChainPipeline.process_claim` (lines 85-93): when the trace is
nonempty, append its rendering to the decision's notes under the
literal separator, or make it the whole notes when notes is absent or
empty (Python truthiness of `decision.notes`). -/
def attach_trace (decision : ClaimDecision) (trace : List TraceEntry) :
    ClaimDecision :=
  if trace.isEmpty then decision
  else
    let trace_summary := format_trace trace
    match decision.notes with
    | some n =>
      if n ≠ "" then
        { decision with
          notes := some (n ++ "\n\n--- Processing Trace ---\n" ++ trace_summary) }
      else
        { decision with
          notes := some ("--- Processing Trace ---\n" ++ trace_summary) }
    | none =>
      { decision with
        notes := some ("--- Processing Trace ---\n" ++ trace_summary) }

/-- C9: attaching the rendered trace never changes the covered flag, the
deductible, the payout or the claim number, and a nonempty pre-existing
notes text is preserved verbatim before the separator. -/
theorem trace_attachment_frame
    (decision : ClaimDecision) (trace : List TraceEntry) :
    (attach_trace decision trace).covered = decision.covered ∧
    (attach_trace decision trace).deductible = decision.deductible ∧
    (attach_trace decision trace).recommended_payout =
      decision.recommended_payout ∧
    (attach_trace decision trace).claim_number = decision.claim_number ∧
    (∀ n, decision.notes = some n → n ≠ "" → trace ≠ [] →
      (attach_trace decision trace).notes =
        some (n ++ "\n\n--- Processing Trace ---\n" ++ format_trace trace)) ∧
    (trace = [] → attach_trace decision trace = decision) := by
  cases htr : trace with
  | nil =>
    simp [attach_trace]
  | cons e rest =>
    cases hn : decision.notes with
    | none =>
      refine ⟨?_, ?_, ?_, ?_, ?_, ?_⟩ <;>
        simp [attach_trace, hn]
    | some n =>
      by_cases hne : n = ""
      · subst hne
        refine ⟨?_, ?_, ?_, ?_, ?_, ?_⟩ <;>
          simp [attach_trace, hn]
      · refine ⟨?_, ?_, ?_, ?_, ?_, ?_⟩ <;>
          simp [attach_trace, hn, hne]

/-- Sample decision used by the C9 witness. -/
def wDecision : ClaimDecision :=
  { claim_number := "CLM-001", covered := true, deductible := 500,
    recommended_payout := 3000, notes := some "Approved under collision." }

/-- Sample trace used by the C9 witness. -/
def wTrace : List TraceEntry :=
  [⟨"parse_claim", 0, []⟩,
   ⟨"validate_claim", 0, [("is_valid", "True"), ("reason", "valid")]⟩]

theorem trace_attachment_frame_witness :
    wDecision.notes = some "Approved under collision." ∧
    (attach_trace wDecision wTrace).notes =
      some ("Approved under collision." ++ "\n\n--- Processing Trace ---\n" ++
        format_trace wTrace) :=
  ⟨rfl,
    (trace_attachment_frame wDecision wTrace).2.2.2.2.1
      "Approved under collision." rfl (by decide) (by decide)⟩

/-- The double-quote character. -/
def quoteC : Char := Char.ofNat 34

/-- The opening-brace character. -/
def lbraceC : Char := Char.ofNat 123

/-- The closing-brace character. -/
def rbraceC : Char := Char.ofNat 125

/-- The backtick character. -/
def btickC : Char := Char.ofNat 96

/-- The backslash character. -/
def backslashC : Char := Char.ofNat 92

/-- Match the brace-free body of the bare-object pattern of
`_extract_json` after its opening brace: the body up to and including
the closing brace, failing if another opening brace (or the end of
input) comes first. -/
def flatBody : List Char → Option (List Char)
  | [] => none
  | c :: cs =>
    if c = rbraceC then some [c]
    else if c = lbraceC then none
    else (flatBody cs).map (fun body => c :: body)

/-- Leftmost match of the bare-object pattern, scanning start positions
left to right as `re.search` does. -/
def bareSearch : List Char → Option (List Char)
  | [] => none
  | c :: cs =>
    if c = lbraceC then
      match flatBody cs with
      | some body => some (c :: body)
      | none => bareSearch cs
    else bareSearch cs

/-- Do the first three characters form a code fence? -/
def startsTicks3 : List Char → Bool
  | a :: b :: c :: _ => a = btickC && b = btickC && c = btickC
  | _ => false

/-- Do the first four characters spell the optional `json` tag? -/
def startsJsonTag : List Char → Bool
  | a :: b :: c :: d :: _ => a = 'j' && b = 's' && c = 'o' && d = 'n'
  | _ => false

/-- After the closing brace of a lazily matched fenced object, the
pattern requires optional whitespace and then a closing fence. -/
def fenceFollows (cs : List Char) : Bool :=
  startsTicks3 (cs.dropWhile isWsChar)

/-- Lazy dot-all body match for the fenced-object pattern: expand the
body minimally until a closing brace that `fenceFollows` accepts. -/
def lazyBody : List Char → Option (List Char)
  | [] => none
  | c :: cs =>
    if c = rbraceC && fenceFollows cs then some [c]
    else (lazyBody cs).map (fun body => c :: body)

/-- One match attempt of the fenced pattern after skipping optional
whitespace: an opening brace followed by a lazy body. -/
def fencedAttempt (cs2 : List Char) : Option (List Char) :=
  match cs2.dropWhile isWsChar with
  | c :: rest =>
    if c = lbraceC then (lazyBody rest).map (fun body => c :: body)
    else none
  | [] => none

/-- Match attempt immediately after an opening fence, handling the
optional `json` tag the way the regex backtracks: first with the tag
consumed, then without. -/
def fencedAt (cs : List Char) : Option (List Char) :=
  if startsJsonTag cs then
    match fencedAttempt (cs.drop 4) with
    | some r => some r
    | none => fencedAttempt cs
  else fencedAttempt cs

/-- Leftmost search for the fenced-object pattern of `_extract_json`,
scanning start positions left to right. -/
def fencedSearch : List Char → Option (List Char)
  | [] => none
  | c :: cs =>
    if startsTicks3 (c :: cs) then
      match fencedAt (cs.drop 2) with
      | some r => some r
      | none => fencedSearch cs
    else fencedSearch cs

/-- Embedding of `SmolAgentsPipeline._extract_json`
(`smolagents_pipeline/pipeline.py` lines 214-229): the fenced-object
regex first, then the bare-object regex, else the whole text. -/
def extract_json (text : String) : String :=
  match fencedSearch text.data with
  | some m => String.mk m
  | none =>
    match bareSearch text.data with
    | some m => String.mk m
    | none => text

/-- JSON values as `json.loads` produces them (the NaN/Infinity
extensions are not modelled). -/
inductive JVal where
  | jnull : JVal
  | jbool (b : Bool) : JVal
  | jnum (q : ℚ) : JVal
  | jstr (s : String) : JVal
  | jarr (xs : List JVal) : JVal
  | jobj (kvs : List (String × JVal)) : JVal

/-- JSON insignificant whitespace (space, tab, newline, carriage
return). -/
def isJsonWs (c : Char) : Bool :=
  c = ' ' || c = '\t' || c = '\n' || c = '\r'

/-- Value of one hexadecimal digit. -/
def hexVal (c : Char) : Option Nat :=
  if c.isDigit then some (c.toNat - 48)
  else if 'a' ≤ c ∧ c ≤ 'f' then some (c.toNat - 87)
  else if 'A' ≤ c ∧ c ≤ 'F' then some (c.toNat - 55)
  else none

/-- Parse the remainder of a JSON string literal after its opening
quote: standard escapes and `\uXXXX` (surrogate pairs are not combined;
an out-of-range code point falls back through `Char.ofNat`), unescaped
control characters rejected as in strict `json.loads`.  Returns the
contents and the input after the closing quote. -/
def parseJStrAux : Nat → List Char → Option (List Char × List Char)
  | 0, _ => none
  | _ + 1, [] => none
  | fuel + 1, c :: cs =>
    if c = quoteC then some ([], cs)
    else if c = backslashC then
      match cs with
      | [] => none
      | e :: cs2 =>
        if e = quoteC || e = backslashC || e = '/' then
          (parseJStrAux fuel cs2).map (fun p => (e :: p.1, p.2))
        else if e = 'b' then
          (parseJStrAux fuel cs2).map (fun p => ('\x08' :: p.1, p.2))
        else if e = 'f' then
          (parseJStrAux fuel cs2).map (fun p => ('\x0c' :: p.1, p.2))
        else if e = 'n' then
          (parseJStrAux fuel cs2).map (fun p => ('\n' :: p.1, p.2))
        else if e = 'r' then
          (parseJStrAux fuel cs2).map (fun p => ('\r' :: p.1, p.2))
        else if e = 't' then
          (parseJStrAux fuel cs2).map (fun p => ('\t' :: p.1, p.2))
        else if e = 'u' then
          match cs2 with
          | h1 :: h2 :: h3 :: h4 :: cs3 =>
            match hexVal h1, hexVal h2, hexVal h3, hexVal h4 with
            | some a, some b, some c3, some d =>
              (parseJStrAux fuel cs3).map
                (fun p => (Char.ofNat (((a * 16 + b) * 16 + c3) * 16 + d)
                  :: p.1, p.2))
            | _, _, _, _ => none
          | _ => none
        else none
    else if c.toNat < 32 then none
    else (parseJStrAux fuel cs).map (fun p => (c :: p.1, p.2))

/-- Parse a JSON number per the grammar
`-?(0|[1-9][0-9]*)(\.[0-9]+)?([eE][+-]?[0-9]+)?`, returning its
rational value and the rest of the input. -/
def parseJNum (cs : List Char) : Option (ℚ × List Char) :=
  let signed := match cs with
    | c :: rest => if c = '-' then (true, rest) else (false, cs)
    | [] => (false, ([] : List Char))
  let neg := signed.1
  let cs1 := signed.2
  let ip := cs1.takeWhile Char.isDigit
  let cs2 := cs1.dropWhile Char.isDigit
  if ip.isEmpty then none
  else if 2 ≤ ip.length ∧ ip.head? = some '0' then none
  else
    let fracStep : Option (List Char × List Char) := match cs2 with
      | c :: rest =>
        if c = '.' then
          let ds := rest.takeWhile Char.isDigit
          if ds.isEmpty then none
          else some (ds, rest.dropWhile Char.isDigit)
        else some ([], cs2)
      | [] => some ([], [])
    match fracStep with
    | none => none
    | some (fr, cs3) =>
      let expStep : Option (Bool × List Char × List Char) := match cs3 with
        | c :: rest =>
          if c = 'e' || c = 'E' then
            let signed2 := match rest with
              | d :: rest2 =>
                if d = '+' then (false, rest2)
                else if d = '-' then (true, rest2)
                else (false, rest)
              | [] => (false, ([] : List Char))
            let ds := signed2.2.takeWhile Char.isDigit
            if ds.isEmpty then none
            else some (signed2.1, ds, signed2.2.dropWhile Char.isDigit)
          else some (false, [], cs3)
        | [] => some (false, [], [])
      match expStep with
      | none => none
      | some (eneg, eds, cs4) =>
        let mant : ℚ := (digitsToNat ip : ℚ) +
          (digitsToNat fr : ℚ) / (10 : ℚ) ^ fr.length
        let mant2 := if neg then -mant else mant
        let ex : ℤ := if eneg then -(digitsToNat eds : ℤ)
          else (digitsToNat eds : ℤ)
        some (mant2 * (10 : ℚ) ^ ex, cs4)

mutual

/-- Fuel-bounded recursive-descent parser for one JSON value; the fuel
`2 * length + 4` always suffices because at most two nested calls occur
per consumed character. -/
def parseJVal : Nat → List Char → Option (JVal × List Char)
  | 0, _ => none
  | fuel + 1, cs =>
    match cs.dropWhile isJsonWs with
    | [] => none
    | c :: rest =>
      if c = quoteC then
        match parseJStrAux (rest.length + 1) rest with
        | some (s, rest2) => some (.jstr (String.mk s), rest2)
        | none => none
      else if c = lbraceC then
        match rest.dropWhile isJsonWs with
        | d :: rest2 =>
          if d = rbraceC then some (.jobj [], rest2)
          else
            match parseJMembers fuel (d :: rest2) with
            | some (kvs, rest3) => some (.jobj kvs, rest3)
            | none => none
        | [] => none
      else if c = '[' then
        match rest.dropWhile isJsonWs with
        | d :: rest2 =>
          if d = ']' then some (.jarr [], rest2)
          else
            match parseJElems fuel (d :: rest2) with
            | some (xs, rest3) => some (.jarr xs, rest3)
            | none => none
        | [] => none
      else if charsStart (c :: rest) ['t', 'r', 'u', 'e'] then
        some (.jbool true, (c :: rest).drop 4)
      else if charsStart (c :: rest) ['f', 'a', 'l', 's', 'e'] then
        some (.jbool false, (c :: rest).drop 5)
      else if charsStart (c :: rest) ['n', 'u', 'l', 'l'] then
        some (.jnull, (c :: rest).drop 4)
      else
        match parseJNum (c :: rest) with
        | some (q, rest2) => some (.jnum q, rest2)
        | none => none

/-- Parse the nonempty member list of a JSON object, consuming the
closing brace. -/
def parseJMembers : Nat → List Char →
    Option (List (String × JVal) × List Char)
  | 0, _ => none
  | fuel + 1, cs =>
    match cs.dropWhile isJsonWs with
    | c :: rest =>
      if c = quoteC then
        match parseJStrAux (rest.length + 1) rest with
        | some (k, rest2) =>
          match rest2.dropWhile isJsonWs with
          | d :: rest3 =>
            if d = ':' then
              match parseJVal fuel rest3 with
              | some (v, rest4) =>
                match rest4.dropWhile isJsonWs with
                | e :: rest5 =>
                  if e = ',' then
                    match parseJMembers fuel rest5 with
                    | some (kvs, rest6) =>
                      some ((String.mk k, v) :: kvs, rest6)
                    | none => none
                  else if e = rbraceC then some ([(String.mk k, v)], rest5)
                  else none
                | [] => none
              | none => none
            else none
          | [] => none
        | none => none
      else none
    | [] => none

/-- Parse the nonempty element list of a JSON array, consuming the
closing bracket. -/
def parseJElems : Nat → List Char → Option (List JVal × List Char)
  | 0, _ => none
  | fuel + 1, cs =>
    match parseJVal fuel cs with
    | some (v, rest) =>
      match rest.dropWhile isJsonWs with
      | e :: rest2 =>
        if e = ',' then
          match parseJElems fuel rest2 with
          | some (xs, rest3) => some (v :: xs, rest3)
          | none => none
        else if e = ']' then some ([v], rest2)
        else none
      | [] => none
    | none => none

end

/-- Embedding of `json.loads`: parse one value and require that only
whitespace remains. -/
def jsonLoads (s : String) : Option JVal :=
  match parseJVal (2 * s.length + 4) s.data with
  | some (v, rest) =>
    if (rest.dropWhile isJsonWs).isEmpty then some v else none
  | none => none

/-- Last-wins key lookup: Python builds the dict from parsed JSON
members, so a duplicate key keeps its last value. -/
def lookupLast (kvs : List (String × JVal)) (k : String) : Option JVal :=
  (kvs.reverse.find? (fun kv => kv.1 == k)).map (fun kv => kv.2)

/-- Lax boolean coercion of pydantic v2 `bool` fields: booleans, 0/1
numbers, and the usual truthy/falsy strings. -/
def laxBool : JVal → Option Bool
  | .jbool b => some b
  | .jnum q => if q = 0 then some false else if q = 1 then some true else none
  | .jstr s =>
    let t := pyLower s
    if t = "true" || t = "yes" || t = "on" || t = "1" then some true
    else if t = "false" || t = "no" || t = "off" || t = "0" then some false
    else none
  | _ => none

/-- Lax float coercion of pydantic v2 `float` fields: numbers and
numeric strings (digits and a dot, optional leading minus). -/
def laxFloat : JVal → Option ℚ
  | .jnum q => some q
  | .jstr s =>
    match s.data with
    | '-' :: rest => (floatOfDigitsDots rest).map (fun q => -q)
    | ds => floatOfDigitsDots ds
  | _ => none

/-- Pydantic v2 `str` fields accept only strings. -/
def laxStr : JVal → Option String
  | .jstr s => some s
  | _ => none

/-- Validation of a parsed JSON value against the `ClaimDecision`
pydantic model (`ClaimDecision(**data)` in `_parse_decision`): the
value must be an object; `claim_number` (string) and `covered` (bool)
are required; `deductible` and `recommended_payout` default to 0 and
must be nonnegative; `notes` defaults to `None`; extra keys are
ignored. -/
def claimDecisionOfJson : JVal → Option ClaimDecision
  | .jobj kvs =>
    match lookupLast kvs "claim_number" with
    | none => none
    | some jcn =>
      match laxStr jcn with
      | none => none
      | some cn =>
        match lookupLast kvs "covered" with
        | none => none
        | some jcov =>
          match laxBool jcov with
          | none => none
          | some cov =>
            let ded : Option ℚ := match lookupLast kvs "deductible" with
              | none => some 0
              | some v => laxFloat v
            let pay : Option ℚ :=
              match lookupLast kvs "recommended_payout" with
              | none => some 0
              | some v => laxFloat v
            let notes : Option (Option String) :=
              match lookupLast kvs "notes" with
              | none => some none
              | some .jnull => some none
              | some (.jstr s) => some (some s)
              | some _ => none
            match ded, pay, notes with
            | some d, some p, some nt =>
              if 0 ≤ d ∧ 0 ≤ p then
                some { claim_number := cn, covered := cov, deductible := d,
                       recommended_payout := p, notes := nt }
              else none
            | _, _, _ => none
  | _ => none

/-- Tier 1 of the recovery pipeline (`_parse_decision` lines 174-178):
direct extraction, JSON parse, schema validation. -/
def tier1 (text : String) : Option ClaimDecision :=
  (jsonLoads (extract_json text)).bind claimDecisionOfJson

/-- Case-insensitive ASCII character comparison, for the IGNORECASE
covered pattern. -/
def charEqCI (a b : Char) : Bool :=
  a.toLower = b.toLower

/-- Case-insensitive list-start test. -/
def charsStartCI : List Char → List Char → Bool
  | _, [] => true
  | [], _ :: _ => false
  | c :: cs, d :: ds => charEqCI c d && charsStartCI cs ds

/-- Match the covered-field pattern of `_fuzzy_extract` at the current
position: quote, the key `covered` (case-insensitively), quote, optional
whitespace, colon, optional whitespace, then the given literal
(case-insensitively). -/
def coveredAt (lit : List Char) (cs : List Char) : Bool :=
  match cs with
  | c :: rest =>
    c = quoteC &&
      (charsStartCI rest ['c', 'o', 'v', 'e', 'r', 'e', 'd'] &&
        (match rest.drop 7 with
          | q :: rest2 =>
            q = quoteC &&
              (match rest2.dropWhile isWsChar with
                | k :: rest4 =>
                  k = ':' && charsStartCI (rest4.dropWhile isWsChar) lit
                | [] => false)
          | [] => false))
  | [] => false

/-- Leftmost search for the covered pattern. -/
def coveredSearch (lit : List Char) : List Char → Bool
  | [] => false
  | c :: cs => coveredAt lit (c :: cs) || coveredSearch lit cs

/-- Match a quoted key, optional whitespace, a colon and optional
whitespace at the current position; returns the input after them. -/
def keyColonAt (key : List Char) (cs : List Char) : Option (List Char) :=
  match cs with
  | c :: rest =>
    if c = quoteC && charsStart rest key then
      match rest.drop key.length with
      | q :: rest2 =>
        if q = quoteC then
          match rest2.dropWhile isWsChar with
          | k :: rest3 =>
            if k = ':' then some (rest3.dropWhile isWsChar) else none
          | [] => none
        else none
      | [] => none
    else none
  | [] => none

/-- Leftmost search for a quoted key followed by a numeric literal
`[\d.]+`; returns the greedy digits-and-dots group. -/
def numFieldSearch (key : List Char) : List Char → Option (List Char)
  | [] => none
  | c :: cs =>
    match keyColonAt key (c :: cs) with
    | some rest =>
      let ds := rest.takeWhile (fun ch => ch.isDigit || ch = '.')
      if ds.isEmpty then numFieldSearch key cs
      else some ds
    | none => numFieldSearch key cs

/-- Leftmost search for a quoted key followed by a quoted string; the
group is the greedy quote-free body. -/
def strFieldSearch (key : List Char) : List Char → Option (List Char)
  | [] => none
  | c :: cs =>
    match keyColonAt key (c :: cs) with
    | some rest =>
      match rest with
      | q :: rest2 =>
        if q = quoteC then
          let body := rest2.takeWhile (fun ch => ch ≠ quoteC)
          if (rest2.drop body.length).head? = some quoteC then some body
          else strFieldSearch key cs
        else strFieldSearch key cs
      | [] => strFieldSearch key cs
    | none => strFieldSearch key cs

/-- Embedding of `SmolAgentsPipeline._fuzzy_extract` (pipeline.py lines
231-262) composed with `ClaimDecision(**data)`: independent regex
recovery of the four fields with safe defaults; `none` models the
`ValueError` that `float()` raises on an unparseable numeric match. -/
def fuzzy_extract (text : String) (claim : ClaimInfo) :
    Option ClaimDecision :=
  let cs := text.data
  let covered :=
    if coveredSearch ['t', 'r', 'u', 'e'] cs then true
    else if coveredSearch ['f', 'a', 'l', 's', 'e'] cs then false
    else false
  let dedQ : Option ℚ := match numFieldSearch "deductible".data cs with
    | some g => floatOfDigitsDots g
    | none => some 0
  let payQ : Option ℚ :=
    match numFieldSearch "recommended_payout".data cs with
    | some g => floatOfDigitsDots g
    | none => some 0
  let notes : String := match strFieldSearch "notes".data cs with
    | some b => String.mk b
    | none => "Extracted from agent output via fuzzy parsing."
  match dedQ, payQ with
  | some d, some p =>
    some { claim_number := claim.claim_number, covered := covered,
           deductible := d, recommended_payout := p, notes := some notes }
  | _, _ => none

/-- The fallback note of `_parse_decision` with its bounded raw-text
excerpt. -/
def fallbackNote (text : String) : String :=
  "Agent output could not be parsed into a valid decision. Raw: " ++
    String.mk (text.data.take 300)

/-- Embedding of `SmolAgentsPipeline._parse_decision` (pipeline.py lines
158-212) with `_retry = True` as at its only call site: direct
extraction, then fuzzy recovery, then the fallback decision.  The
function is total, mirroring the source's catch-all exception
handling. -/
def parse_decision (text : String) (claim : ClaimInfo) : ClaimDecision :=
  match tier1 text with
  | some d => d
  | none =>
    match fuzzy_extract text claim with
    | some d => d
    | none =>
      { claim_number := claim.claim_number, covered := false,
        deductible := 0, recommended_payout := 0,
        notes := some (fallbackNote text) }

/-- C1: the recovery pipeline is total — it returns a decision for every
input text — and whenever neither direct JSON extraction nor fuzzy field
recovery yields a parseable decision, the returned decision is not
covered, has zero deductible and payout, and its notes carry an excerpt
of the raw text at most 300 characters long. -/
theorem parse_decision_total_fallback (text : String) (claim : ClaimInfo) :
    (∃ d, parse_decision text claim = d) ∧
    (tier1 text = none → fuzzy_extract text claim = none →
      parse_decision text claim =
        { claim_number := claim.claim_number, covered := false,
          deductible := 0, recommended_payout := 0,
          notes := some (fallbackNote text) } ∧
      (String.mk (text.data.take 300)).length ≤ 300 ∧
      strHas (fallbackNote text) (String.mk (text.data.take 300)) = true) := by
  refine ⟨⟨_, rfl⟩, ?_⟩
  intro h1 h2
  refine ⟨by simp [parse_decision, h1, h2], ?_, ?_⟩
  · show (text.data.take 300).length ≤ 300
    simp [List.length_take]
  · show charsHave ("Agent output could not be parsed into a valid decision. Raw: ".data
      ++ text.data.take 300) (text.data.take 300) = true
    exact charsHave_append_left _ (charsHave_refl _)

/-- Text on which both recovery tiers fail: no fenced or bare object, and
a numeric field match `1.2.3` on which `float()` raises. -/
def wBadText : String := "\x22deductible\x22: 1.2.3"

theorem parse_decision_total_fallback_witness :
    tier1 wBadText = none ∧ fuzzy_extract wBadText wClaim = none ∧
    parse_decision wBadText wClaim =
      { claim_number := wClaim.claim_number, covered := false,
        deductible := 0, recommended_payout := 0,
        notes := some (fallbackNote wBadText) } :=
  ⟨by decide, by decide,
    ((parse_decision_total_fallback wBadText wClaim).2 (by decide)
      (by decide)).1⟩

/-- A flat object: an opening brace, a brace-free body, a closing
brace — exactly the language of the bare-object regex. -/
def isFlatObj (m : List Char) : Prop :=
  ∃ body, m = lbraceC :: body ++ [rbraceC] ∧
    ∀ c ∈ body, c ≠ lbraceC ∧ c ≠ rbraceC

theorem flatBody_complete (body rest : List Char)
    (hb : ∀ c ∈ body, c ≠ lbraceC ∧ c ≠ rbraceC) :
    flatBody (body ++ rbraceC :: rest) = some (body ++ [rbraceC]) := by
  induction body with
  | nil => simp [flatBody]
  | cons c cs ih =>
    have hc := hb c (by simp)
    have ih2 := ih (fun x hx => hb x (by simp [hx]))
    simp [flatBody, hc.1, hc.2, ih2]

theorem flatBody_sound : ∀ (cs b : List Char), flatBody cs = some b →
    ∃ body rest, b = body ++ [rbraceC] ∧ cs = body ++ rbraceC :: rest ∧
      ∀ c ∈ body, c ≠ lbraceC ∧ c ≠ rbraceC := by
  intro cs
  induction cs with
  | nil => intro b h; simp [flatBody] at h
  | cons c cs ih =>
    intro b h
    by_cases hr : c = rbraceC
    · subst hr
      rw [flatBody, if_pos rfl] at h
      obtain rfl : ([rbraceC] : List Char) = b := by simpa using h
      exact ⟨[], cs, by simp, by simp, by simp⟩
    · by_cases hl : c = lbraceC
      · rw [flatBody, if_neg hr, if_pos hl] at h; cases h
      · rw [flatBody, if_neg hr, if_neg hl, Option.map_eq_some'] at h
        obtain ⟨a, ha, rfl⟩ := h
        obtain ⟨body, rest, rfl, hcs, hbf⟩ := ih a ha
        refine ⟨c :: body, rest, by simp, by simp [hcs], ?_⟩
        intro x hx
        rcases List.mem_cons.mp hx with rfl | hx
        · exact ⟨hl, hr⟩
        · exact hbf x hx

theorem bareSearch_some : ∀ (cs m : List Char), bareSearch cs = some m →
    ∃ pre post, cs = pre ++ m ++ post ∧ isFlatObj m ∧
      ∀ pre2 m2 post2, cs = pre2 ++ m2 ++ post2 → isFlatObj m2 →
        pre.length ≤ pre2.length := by
  intro cs
  induction cs with
  | nil => intro m h; simp [bareSearch] at h
  | cons c cs ih =>
    intro m h
    rw [bareSearch] at h
    by_cases hl : c = lbraceC
    · subst hl
      rw [if_pos rfl] at h
      cases hfb : flatBody cs with
      | some body =>
        rw [hfb] at h
        obtain rfl : lbraceC :: body = m := by simpa using h
        obtain ⟨bod, rest, hb, hcs, hbf⟩ := flatBody_sound cs body hfb
        refine ⟨[], rest, ?_, ⟨bod, by simp [hb], hbf⟩, ?_⟩
        · rw [hcs, hb]; simp
        · intro pre2 _ _ _ _; simp
      | none =>
        rw [hfb] at h
        obtain ⟨pre, post, hdec, hflat, hmin⟩ := ih m h
        refine ⟨lbraceC :: pre, post, by simp [hdec], hflat, ?_⟩
        intro pre2 m2 post2 hdec2 hflat2
        cases pre2 with
        | nil =>
          exfalso
          obtain ⟨body2, rfl, hbf2⟩ := hflat2
          simp only [List.nil_append, List.cons_append, List.append_assoc,
            List.cons.injEq, List.singleton_append] at hdec2
          rw [hdec2.2, flatBody_complete body2 post2 hbf2] at hfb
          cases hfb
        | cons d pre2' =>
          simp only [List.cons_append, List.cons.injEq] at hdec2
          have := hmin pre2' m2 post2
            (by simpa [List.append_assoc] using hdec2.2) hflat2
          simpa using Nat.succ_le_succ this
    · rw [if_neg hl] at h
      obtain ⟨pre, post, hdec, hflat, hmin⟩ := ih m h
      refine ⟨c :: pre, post, by simp [hdec], hflat, ?_⟩
      intro pre2 m2 post2 hdec2 hflat2
      cases pre2 with
      | nil =>
        exfalso
        obtain ⟨body2, rfl, _⟩ := hflat2
        simp only [List.nil_append, List.cons_append, List.cons.injEq] at hdec2
        exact hl hdec2.1
      | cons d pre2' =>
        simp only [List.cons_append, List.cons.injEq] at hdec2
        have := hmin pre2' m2 post2
          (by simpa [List.append_assoc] using hdec2.2) hflat2
        simpa using Nat.succ_le_succ this

theorem bareSearch_none : ∀ (cs : List Char), bareSearch cs = none →
    ∀ pre m post, cs = pre ++ m ++ post → ¬ isFlatObj m := by
  intro cs
  induction cs with
  | nil =>
    intro _ pre m post hdec hflat
    obtain ⟨body, rfl, _⟩ := hflat
    simp at hdec
  | cons c cs ih =>
    intro h pre m post hdec hflat
    rw [bareSearch] at h
    by_cases hl : c = lbraceC
    · subst hl
      rw [if_pos rfl] at h
      cases hfb : flatBody cs with
      | some body => rw [hfb] at h; cases h
      | none =>
        rw [hfb] at h
        cases pre with
        | nil =>
          obtain ⟨body2, rfl, hbf2⟩ := hflat
          simp only [List.nil_append, List.cons_append, List.append_assoc,
            List.cons.injEq, List.singleton_append] at hdec
          rw [hdec.2, flatBody_complete body2 post hbf2] at hfb
          cases hfb
        | cons d pre' =>
          simp only [List.cons_append, List.cons.injEq] at hdec
          exact ih h pre' m post
            (by simpa [List.append_assoc] using hdec.2) hflat
    · rw [if_neg hl] at h
      cases pre with
      | nil =>
        obtain ⟨body2, rfl, _⟩ := hflat
        simp only [List.nil_append, List.cons_append, List.cons.injEq] at hdec
        exact hl hdec.1
      | cons d pre' =>
        simp only [List.cons_append, List.cons.injEq] at hdec
        exact ih h pre' m post
          (by simpa [List.append_assoc] using hdec.2) hflat

theorem lazyBody_sound : ∀ (cs b : List Char), lazyBody cs = some b →
    (∃ rest, cs = b ++ rest) ∧ b ≠ [] ∧ b.getLast? = some rbraceC := by
  intro cs
  induction cs with
  | nil => intro b h; simp [lazyBody] at h
  | cons c cs ih =>
    intro b h
    by_cases hc : (c = rbraceC && fenceFollows cs) = true
    · rw [lazyBody, if_pos hc] at h
      obtain rfl : ([c] : List Char) = b := by simpa using h
      have hcr : c = rbraceC := by
        have h2 := hc
        simp only [Bool.and_eq_true, decide_eq_true_eq] at h2
        exact h2.1
      exact ⟨⟨cs, by simp⟩, by simp, by simp [hcr]⟩
    · rw [lazyBody, if_neg hc, Option.map_eq_some'] at h
      obtain ⟨a, ha, rfl⟩ := h
      obtain ⟨⟨rest, hrest⟩, hne, hlast⟩ := ih a ha
      refine ⟨⟨rest, by simp [hrest]⟩, by simp, ?_⟩
      cases a with
      | nil => exact absurd rfl hne
      | cons a0 as => rw [List.getLast?_cons_cons]; exact hlast

theorem fencedAttempt_sound (cs2 m : List Char)
    (h : fencedAttempt cs2 = some m) :
    (∃ pre post, cs2 = pre ++ m ++ post) ∧
      m.head? = some lbraceC ∧ m.getLast? = some rbraceC := by
  unfold fencedAttempt at h
  split at h
  · rename_i c rest hd
    split at h
    · rename_i hl
      rw [Option.map_eq_some'] at h
      obtain ⟨body, hb, rfl⟩ := h
      obtain ⟨⟨rest2, hrest⟩, hne, hlast⟩ := lazyBody_sound rest body hb
      refine ⟨⟨cs2.takeWhile isWsChar, rest2, ?_⟩, by simp [hl], ?_⟩
      · conv_lhs => rw [← List.takeWhile_append_dropWhile (p := isWsChar)
          (l := cs2)]
        rw [hd, hrest]
        simp
      · cases body with
        | nil => exact absurd rfl hne
        | cons b0 bs => rw [List.getLast?_cons_cons]; exact hlast
    · cases h
  · cases h

theorem fencedAt_sound (cs m : List Char) (h : fencedAt cs = some m) :
    (∃ pre post, cs = pre ++ m ++ post) ∧
      m.head? = some lbraceC ∧ m.getLast? = some rbraceC := by
  unfold fencedAt at h
  by_cases hj : startsJsonTag cs = true
  · rw [if_pos hj] at h
    cases hfa : fencedAttempt (cs.drop 4) with
    | some r =>
      rw [hfa] at h
      obtain rfl : r = m := by simpa using h
      obtain ⟨⟨pre, post, hdec⟩, hh, hl⟩ := fencedAttempt_sound _ _ hfa
      refine ⟨⟨cs.take 4 ++ pre, post, ?_⟩, hh, hl⟩
      conv_lhs => rw [← List.take_append_drop 4 cs]
      rw [hdec]
      simp
    | none =>
      rw [hfa] at h
      exact fencedAttempt_sound _ _ h
  · rw [if_neg hj] at h
    exact fencedAttempt_sound _ _ h

theorem fencedSearch_sound : ∀ (cs m : List Char),
    fencedSearch cs = some m →
    (∃ pre post, cs = pre ++ m ++ post) ∧
      m.head? = some lbraceC ∧ m.getLast? = some rbraceC := by
  intro cs
  induction cs with
  | nil => intro m h; simp [fencedSearch] at h
  | cons c cs ih =>
    intro m h
    rw [fencedSearch] at h
    by_cases ht : startsTicks3 (c :: cs) = true
    · rw [if_pos ht] at h
      cases hfa : fencedAt (cs.drop 2) with
      | some r =>
        rw [hfa] at h
        obtain rfl : r = m := by simpa using h
        obtain ⟨⟨pre, post, hdec⟩, hh, hl⟩ := fencedAt_sound _ _ hfa
        refine ⟨⟨c :: (cs.take 2 ++ pre), post, ?_⟩, hh, hl⟩
        conv_lhs => rw [show cs = cs.take 2 ++ cs.drop 2 from
          (List.take_append_drop 2 cs).symm]
        rw [hdec]
        simp
      | none =>
        rw [hfa] at h
        obtain ⟨⟨pre, post, hdec⟩, hh, hl⟩ := ih m h
        exact ⟨⟨c :: pre, post, by simp [hdec]⟩, hh, hl⟩
    · rw [if_neg ht] at h
      obtain ⟨⟨pre, post, hdec⟩, hh, hl⟩ := ih m h
      exact ⟨⟨c :: pre, post, by simp [hdec]⟩, hh, hl⟩

/-- Balanced body scan used by the spec-described extractor: consume
until the matching close brace, tracking nesting depth. -/
def balancedBody : Nat → List Char → Nat → Option (List Char)
  | 0, _, _ => none
  | _ + 1, [], _ => none
  | fuel + 1, c :: cs, depth =>
    if c = rbraceC then
      if depth = 0 then some [c]
      else (balancedBody fuel cs (depth - 1)).map (fun b => c :: b)
    else if c = lbraceC then
      (balancedBody fuel cs (depth + 1)).map (fun b => c :: b)
    else (balancedBody fuel cs depth).map (fun b => c :: b)

/-- Formalisation of the claim's words, for comparison with the source:
"the first balanced brace-delimited object in the text (including
objects containing nested braces)". -/
def specFirstBalancedObject : List Char → Option (List Char)
  | [] => none
  | c :: cs =>
    if c = lbraceC then
      match balancedBody (cs.length + 1) cs 0 with
      | some b => some (c :: b)
      | none => specFirstBalancedObject cs
    else specFirstBalancedObject cs

/-- A bare text whose first balanced object contains a nested object. -/
def wNested : String := "\x7b\x22a\x22: \x7b\x22b\x22: 1\x7d\x7d"

/-- C8 counterexample: on `wNested` the first balanced brace-delimited
object is the whole text, but `_extract_json` returns the inner
brace-free object, so the extraction is not the first balanced object. -/
theorem extract_json_not_first_balanced :
    specFirstBalancedObject wNested.data = some wNested.data ∧
    extract_json wNested = "\x7b\x22b\x22: 1\x7d" ∧
    wNested ≠ "\x7b\x22b\x22: 1\x7d" :=
  ⟨by decide, by decide, by decide⟩

/-- C8 (amended): the first tier extracts the object immediately inside
a fenced code block when the fenced pattern matches (the result is
always a brace-delimited occurrence in the text); otherwise it extracts
the leftmost brace-delimited object containing no nested braces; when
neither pattern matches anywhere, the whole text is passed through and
no brace-free object occurs in it.  The extracted candidate is then
parsed against the decision schema (`tier1`). -/
theorem extract_json_amended (text : String) :
    (∀ m, fencedSearch text.data = some m →
      extract_json text = String.mk m ∧
      (∃ pre post, text.data = pre ++ m ++ post) ∧
      m.head? = some lbraceC ∧ m.getLast? = some rbraceC) ∧
    (fencedSearch text.data = none →
      ∀ m, bareSearch text.data = some m →
        extract_json text = String.mk m ∧
        ∃ pre post, text.data = pre ++ m ++ post ∧ isFlatObj m ∧
          ∀ pre2 m2 post2, text.data = pre2 ++ m2 ++ post2 →
            isFlatObj m2 → pre.length ≤ pre2.length) ∧
    (fencedSearch text.data = none → bareSearch text.data = none →
      extract_json text = text ∧
      ∀ pre m post, text.data = pre ++ m ++ post → ¬ isFlatObj m) ∧
    (tier1 text = (jsonLoads (extract_json text)).bind claimDecisionOfJson) := by
  refine ⟨?_, ?_, ?_, rfl⟩
  · intro m hm
    obtain ⟨⟨pre, post, hdec⟩, hh, hl⟩ := fencedSearch_sound text.data m hm
    exact ⟨by simp [extract_json, hm], ⟨pre, post, hdec⟩, hh, hl⟩
  · intro hf m hm
    obtain ⟨pre, post, hdec, hflat, hmin⟩ := bareSearch_some text.data m hm
    exact ⟨by simp [extract_json, hf, hm], pre, post, hdec, hflat, hmin⟩
  · intro hf hb
    exact ⟨by simp [extract_json, hf, hb], bareSearch_none text.data hb⟩

/-- Bare text with a single flat object, used by the C8 witness. -/
def wBareText : String := "The answer is \x7b\x22a\x22: 1\x7d indeed"

theorem extract_json_amended_witness :
    fencedSearch wBareText.data = none ∧
    bareSearch wBareText.data = some "\x7b\x22a\x22: 1\x7d".data ∧
    extract_json wBareText = "\x7b\x22a\x22: 1\x7d" :=
  ⟨by decide, by decide,
    ((extract_json_amended wBareText).2.1 (by decide)
      "\x7b\x22a\x22: 1\x7d".data (by decide)).1.trans (by decide)⟩

end ClaimAgent
